import Mathlib

/-!
Verification of the `Builder` class of `src/mod.ts` (a small Deno build
tool).  The class is embedded shallowly: the mutable fields of the class
become a `Builder` structure threaded explicitly, external effects
(`console` output, handler invocations, `process.exit`) become an event
list plus an `Except` result, and external oracles (the filesystem, shell
command execution) become function parameters.
-/

namespace BuildTool

/-- `Task` from `src/mod.ts` (lines 18-22): a named task with a handler
`(args) => number`.  Handler arguments (`Record<string, unknown>`) are an
abstract type `α`; the TS `number` return value is used only as a signed
integer, embedded as `Int`. -/
structure Task (α : Type) where
  name : String
  description : String
  handler : α → Int

/-- The mutable fields of the `Builder` class (lines 28-41).  The option
registry (`args`, used by `addArgument`/`begin`) is modelled separately
with an explicit heap, because its claim is about aliasing. -/
structure Builder (α : Type) where
  shouldVerbose : Bool
  tasks : List (Task α)
  taskStack : List String
  allowExternalCommands : Bool

/-- The constructor (lines 35-41): all flags false, empty task list and
empty task stack. -/
def mkBuilder (α : Type) : Builder α :=
  ⟨false, [], [], false⟩

/-- Observable events produced while methods run.  `handlerCall` records a
task handler being invoked, together with the task-stack contents at the
moment of the call; the message events record console output by severity. -/
inductive Event (α : Type) where
  | verboseMsg (msg : String)
  | errorMsg (msg : String)
  | fatalMsg (msg : String)
  | handlerCall (name : String) (args : α) (stack : List String)
  deriving Repr

/-- `fatal` (lines 83-93): prints the message, and — when the task stack is
non-empty and verbosity is on — reverses the stack in place to print it;
then exits with status 1.  Returns the mutated builder, the events and the
exit code. -/
def Builder.fatal {α : Type} (b : Builder α) (msg : String) :
    Builder α × List (Event α) × Nat :=
  let b' :=
    if b.taskStack.length > 0 && b.shouldVerbose then
      { b with taskStack := b.taskStack.reverse }
    else b
  (b', [Event.fatalMsg msg], 1)

/-- `addTask` (lines 101-103): push the task onto the task list. -/
def Builder.addTask {α : Type} (b : Builder α) (name desc : String)
    (c : α → Int) : Builder α :=
  { b with tasks := b.tasks ++ [⟨name, desc, c⟩] }

/-- Outcome of a method that can terminate the process: `.error code` is
`process.exit(code)`, `.ok v` a normal return of `v`. -/
structure RunOutcome (α : Type) where
  result : Except Nat Int
  builder : Builder α
  events : List (Event α)

/-- `runTask` (lines 119-132): linear search for the first task with the
requested name (`Array.prototype.find`); fatal exit when absent; otherwise
log entry (verbose), push the name, invoke the handler once, pop, log an
error when the result is negative, and return the raw result. -/
def Builder.runTask {α : Type} (b : Builder α) (task : String) (args : α) :
    RunOutcome α :=
  match b.tasks.find? (fun v => v.name == task) with
  | none =>
      let f := Builder.fatal b ("Failed to run task \"" ++ task ++ "\"")
      ⟨Except.error f.2.2, f.1, f.2.1⟩
  | some t =>
      let ev1 : List (Event α) :=
        if b.shouldVerbose then [Event.verboseMsg ("Starting task " ++ t.name ++ "...")]
        else []
      let pushed := b.taskStack ++ [t.name]
      let resp := t.handler args
      let b2 := { b with taskStack := pushed.dropLast }
      let ev3 : List (Event α) :=
        if resp < 0 then [Event.errorMsg ("Failed task \"" ++ t.name ++ "\"")]
        else []
      ⟨Except.ok resp, b2, ev1 ++ [Event.handlerCall t.name args pushed] ++ ev3⟩

/-- The per-command yargs callback installed by `begin` (lines 150-153):
set the verbosity flag from the parsed `-v` option, then run the selected
task.  `begin` itself delegates parsing to yargs (external); this is the
code path by which a chosen task is invoked directly from `begin`. -/
def Builder.beginHandler {α : Type} (b : Builder α) (taskName : String)
    (v : Bool) (args : α) : RunOutcome α :=
  let b' := if v then { b with shouldVerbose := true } else b
  Builder.runTask b' taskName args

/-- The `(name, args)` pairs of the handler invocations in an event list. -/
def handlerCalls {α : Type} (evs : List (Event α)) : List (String × α) :=
  evs.filterMap (fun e =>
    match e with
    | Event.handlerCall n a _ => some (n, a)
    | _ => none)

/-- The task-stack snapshots observed at each handler invocation. -/
def stacksAtCalls {α : Type} (evs : List (Event α)) : List (List String) :=
  evs.filterMap (fun e =>
    match e with
    | Event.handlerCall _ _ s => some s
    | _ => none)

/-- Whether an error-severity message was logged. -/
def hasError {α : Type} (evs : List (Event α)) : Bool :=
  evs.any (fun e =>
    match e with
    | Event.errorMsg _ => true
    | _ => false)

/-- Whether a fatal-severity message was logged. -/
def hasFatal {α : Type} (evs : List (Event α)) : Bool :=
  evs.any (fun e =>
    match e with
    | Event.fatalMsg _ => true
    | _ => false)

/-- Concrete demo tasks and builder used by witnesses: two tasks sharing
the name "build" (the second is shadowed), registered on a fresh builder. -/
def tA : Task Nat := ⟨"build", "subtract five", fun n => (n : Int) - 5⟩

def tB : Task Nat := ⟨"build", "shadowed", fun _ => 7⟩

def bDemo : Builder Nat :=
  Builder.addTask (Builder.addTask (mkBuilder Nat) "build" "subtract five"
    (fun n => (n : Int) - 5)) "build" "shadowed" (fun _ => 7)

theorem bDemo_tasks : bDemo.tasks = [tA, tB] := rfl

theorem find_first_of_split {α : Type} (pre post : List (Task α)) (t : Task α)
    (task : String) (hpre : ∀ u ∈ pre, u.name ≠ task) (ht : t.name = task) :
    (pre ++ t :: post).find? (fun v => v.name == task) = some t := by
  induction pre with
  | nil => simp [List.find?, ht]
  | cons u us ih =>
    have hu : (u.name == task) = false :=
      beq_eq_false_iff_ne.mpr (hpre u (by simp))
    simp only [List.cons_append, List.find?, hu]
    exact ih (fun w hw => hpre w (by simp [hw]))

theorem find_none_of_all_ne {α : Type} (l : List (Task α)) (task : String)
    (hall : ∀ u ∈ l, u.name ≠ task) :
    l.find? (fun v => v.name == task) = none := by
  induction l with
  | nil => rfl
  | cons u us ih =>
    have hu : (u.name == task) = false :=
      beq_eq_false_iff_ne.mpr (hall u (by simp))
    simp only [List.find?, hu]
    exact ih (fun w hw => hall w (by simp [hw]))

/-- C1: for every registry and every name `task` under which at least one
task is registered, `runTask(task, args)` invokes exactly the handler of
the first-registered task of that name, exactly once, with the given args,
and returns that handler's return value unchanged; when the value is
negative an error is logged, yet `runTask` still returns normally with the
negative value. -/
theorem runTask_first_match {α : Type} (b : Builder α) (task : String)
    (args : α) (pre post : List (Task α)) (t : Task α)
    (hsplit : b.tasks = pre ++ t :: post)
    (hpre : ∀ u ∈ pre, u.name ≠ task) (ht : t.name = task) :
    (b.runTask task args).result = Except.ok (t.handler args) ∧
    handlerCalls (b.runTask task args).events = [(t.name, args)] ∧
    (hasError (b.runTask task args).events = true ↔ t.handler args < 0) := by
  have hfind : b.tasks.find? (fun v => v.name == task) = some t := by
    rw [hsplit]; exact find_first_of_split pre post t task hpre ht
  by_cases hv : b.shouldVerbose <;> by_cases hr : t.handler args < 0 <;>
    simp [Builder.runTask, hfind, handlerCalls, hasError, hv, hr]

/-- Witness for `runTask_first_match`: on the demo registry with two tasks
named "build", only the first-registered one runs, and its negative result
is returned with an error logged. -/
theorem runTask_first_match_witness :
    (Builder.runTask bDemo "build" 2).result = Except.ok (tA.handler 2) ∧
    handlerCalls (Builder.runTask bDemo "build" 2).events = [("build", 2)] ∧
    (hasError (Builder.runTask bDemo "build" 2).events = true ↔
      tA.handler 2 < 0) :=
  runTask_first_match bDemo "build" 2 [] [tB] tA bDemo_tasks
    (by intro u hu; cases hu) rfl

/-- C2: for every registry and every name `task` under which no task is
registered, `runTask(task, args)` does not return: it logs a fatal
diagnostic, invokes no handler, and exits the process with the non-zero
status 1. -/
theorem runTask_unknown_fatal {α : Type} (b : Builder α) (task : String)
    (args : α) (hall : ∀ u ∈ b.tasks, u.name ≠ task) :
    (b.runTask task args).result = Except.error 1 ∧
    hasFatal (b.runTask task args).events = true ∧
    handlerCalls (b.runTask task args).events = [] := by
  have hfind : b.tasks.find? (fun v => v.name == task) = none :=
    find_none_of_all_ne b.tasks task hall
  simp [Builder.runTask, hfind, Builder.fatal, hasFatal, handlerCalls]

/-- Witness for `runTask_unknown_fatal`: running the unregistered name
"clean" on the demo registry exits with status 1. -/
theorem runTask_unknown_fatal_witness :
    (Builder.runTask bDemo "clean" 0).result = Except.error 1 ∧
    hasFatal (Builder.runTask bDemo "clean" 0).events = true ∧
    handlerCalls (Builder.runTask bDemo "clean" 0).events = [] :=
  runTask_unknown_fatal bDemo "clean" 0 (by decide)

theorem stacksAtCalls_runTask {α : Type} (b : Builder α) (T : String)
    (args : α) (t : Task α)
    (hfind : b.tasks.find? (fun x => x.name == T) = some t) :
    stacksAtCalls (b.runTask T args).events = [b.taskStack ++ [t.name]] := by
  by_cases hv : b.shouldVerbose <;> by_cases hr : t.handler args < 0 <;>
    simp [Builder.runTask, hfind, stacksAtCalls, hv, hr]

theorem taskStack_runTask {α : Type} (b : Builder α) (T : String)
    (args : α) (t : Task α)
    (hfind : b.tasks.find? (fun x => x.name == T) = some t) :
    (b.runTask T args).builder.taskStack = b.taskStack := by
  simp [Builder.runTask, hfind, List.dropLast_concat]

/-- C3: a task invoked directly from `begin`'s command callback (where the
task stack is still the constructor's empty stack) observes exactly the
one-element stack `[t.name]` inside its handler, and the stack is empty
again after the handler returns; moreover every `runTask` that returns
normally restores the task stack it found. -/
theorem runTask_stack_discipline {α : Type} (b : Builder α) (T : String)
    (v : Bool) (args : α) (t : Task α) :
    (b.taskStack = [] → b.tasks.find? (fun x => x.name == T) = some t →
      stacksAtCalls (Builder.beginHandler b T v args).events = [[t.name]] ∧
      (Builder.beginHandler b T v args).builder.taskStack = []) ∧
    (∀ r : Int, (b.runTask T args).result = Except.ok r →
      (b.runTask T args).builder.taskStack = b.taskStack) := by
  constructor
  · intro hstk hfind
    have h1 := stacksAtCalls_runTask { b with shouldVerbose := true } T args t hfind
    have h2 := stacksAtCalls_runTask b T args t hfind
    have h3 := taskStack_runTask { b with shouldVerbose := true } T args t hfind
    have h4 := taskStack_runTask b T args t hfind
    unfold Builder.beginHandler
    cases v <;> simp_all
  · intro r hr
    unfold Builder.runTask at hr ⊢
    cases hfind : b.tasks.find? (fun x => x.name == T) with
    | none => simp [hfind] at hr
    | some u => simp [hfind, List.dropLast_concat]

/-- Witness for `runTask_stack_discipline`: from `begin` on the demo
registry, the handler of "build" observes the stack ["build"], and the
stack is empty afterwards; the normal return restores the empty stack. -/
theorem runTask_stack_discipline_witness :
    (stacksAtCalls (Builder.beginHandler bDemo "build" false 2).events
        = [["build"]] ∧
      (Builder.beginHandler bDemo "build" false 2).builder.taskStack = []) ∧
    (Builder.runTask bDemo "build" 2).builder.taskStack = bDemo.taskStack :=
  ⟨(runTask_stack_discipline bDemo "build" false 2 tA).1 rfl rfl,
    (runTask_stack_discipline bDemo "build" false 2 tA).2 (tA.handler 2) rfl⟩

/-- Result of one `runCommand` call: `result` is `.ok b` for a normal
boolean return and `.error ()` for the fatal process exit; `executed`
records the shell commands handed to `execSync`. -/
structure CmdOutcome where
  result : Except Unit Bool
  executed : List String
  deriving Repr

/-- `runCommand` (lines 222-234): run the command via `execSync` (the
oracle `exec` tells whether the shell command succeeds); on success return
true; on failure either exit fatally (default `continueIfFailed = false`)
or return false. -/
def runCommand (exec : String → Bool) (command : String)
    (continueIfFailed : Bool) : CmdOutcome :=
  if exec command then ⟨Except.ok true, [command]⟩
  else if continueIfFailed then ⟨Except.ok false, [command]⟩
  else ⟨Except.error (), [command]⟩

/-- The filesystem oracle: `existsSync` and the `mtime` of `statSync`
in milliseconds (`none` models an absent/undefined `mtime` Date). -/
structure FileSys where
  existsSync : String → Bool
  mtime : String → Option Int

/-- Outcome of `compile`: fatal exit before attempting the command, the
command handed to `runCommand`, or nothing run. -/
inductive CompileOutcome where
  | fatalMissingSource
  | ranCommand (o : CmdOutcome)
  | skipped
  deriving Repr

/-- `compile` (lines 242-259): fatal when `source` does not exist; run the
command when `destination` does not exist; otherwise run it exactly when
the source `mtime` is absent (JS falsy check `!sourceStats.mtime`) or its
time exceeds the destination's (each defaulting to 0 when undefined). -/
def compile (fs : FileSys) (exec : String → Bool)
    (command source destination : String) : CompileOutcome :=
  if fs.existsSync source = false then CompileOutcome.fatalMissingSource
  else if fs.existsSync destination = false then
    CompileOutcome.ranCommand (runCommand exec command false)
  else
    let sm := fs.mtime source
    let dm := fs.mtime destination
    if sm.isNone || decide (sm.getD 0 > dm.getD 0) then
      CompileOutcome.ranCommand (runCommand exec command false)
    else CompileOutcome.skipped

/-- Whether `compile` executed its command. -/
def CompileOutcome.ran : CompileOutcome → Bool
  | CompileOutcome.ranCommand _ => true
  | _ => false

/-- Character-level `String.take`, embedding `msg.slice(0, n)`. -/
def strTake (s : String) (n : Nat) : String :=
  String.mk (s.toList.take n)

/-- Character-level `String.drop`, embedding `msg.slice(n)`. -/
def strDrop (s : String) (n : Nat) : String :=
  String.mk (s.toList.drop n)

/-- Embedding of `msg.startsWith('r::')`: the first three characters are
`r::`. -/
def startsWithRunMarker (msg : String) : Bool :=
  strTake msg 3 == "r::"

/-- The `message` listener installed by `startExServer` (lines 329-335):
when the message starts with "r::", run the rest as a local command with
`continueIfFailed = true` and reply 0 on success, 1 on failure; otherwise
do nothing.  Returns (reply sent, commands executed, process exited). -/
def serverHandleMessage (exec : String → Bool) (msg : String) :
    Option Nat × List String × Bool :=
  if startsWithRunMarker msg then
    let o := runCommand exec (strDrop msg 3) true
    match o.result with
    | Except.ok b => (some (if b then 0 else 1), o.executed, false)
    | Except.error _ => (none, o.executed, true)
  else (none, [], false)

/-- What the client side of `exCall` does (lines 350-378): either a local
`runCommand` (with its outcome) or a WebSocket send of the framed command
to the resolved address. -/
inductive ExCallOutcome where
  | localRun (o : CmdOutcome)
  | networkSend (ip : String) (port : Nat) (msg : String)
  deriving Repr

/-- `exCall` (lines 350-378): when `allowExternalCommands` is false (the
constructor default), run the command locally via `runCommand` with the
default `continueIfFailed = false` and return; otherwise connect to the
remote dispatcher and send `"r::" + s`. -/
def Builder.exCall {α : Type} (b : Builder α) (exec : String → Bool)
    (s : String) (ip : Option String) (port : Nat) : ExCallOutcome :=
  if b.allowExternalCommands = false then
    ExCallOutcome.localRun (runCommand exec s false)
  else
    ExCallOutcome.networkSend (ip.getD "127.0.0.1") port ("r::" ++ s)

/-- Whether an `exCall` outcome opened a network connection. -/
def ExCallOutcome.usedNetwork : ExCallOutcome → Bool
  | ExCallOutcome.networkSend _ _ _ => true
  | _ => false

/-- Whether an `exCall` outcome returned normally to its caller (a local
run that did not exit the process; the network path always returns). -/
def ExCallOutcome.returnsNormally : ExCallOutcome → Bool
  | ExCallOutcome.localRun o =>
      match o.result with
      | Except.ok _ => true
      | Except.error _ => false
  | ExCallOutcome.networkSend _ _ _ => true

/-- The commands executed locally by an `exCall` outcome. -/
def ExCallOutcome.executedLocally : ExCallOutcome → List String
  | ExCallOutcome.localRun o => o.executed
  | ExCallOutcome.networkSend _ _ _ => []

/-- `allowExternal` (lines 315-317): set the flag that routes `exCall`
over the network. -/
def Builder.allowExternal {α : Type} (b : Builder α) : Builder α :=
  { b with allowExternalCommands := true }

/-- Demo shell oracle for witnesses: exactly the command "ok" succeeds. -/
def exec0 : String → Bool := fun s => s == "ok"

/-- Demo filesystem for witnesses: `src.c` (mtime 10), `dst.o` (mtime 5)
and `old.c` (mtime unavailable) exist; nothing else does. -/
def fsDemo : FileSys :=
  ⟨fun p => p == "src.c" || p == "dst.o" || p == "old.c",
   fun p => if p == "src.c" then some 10
     else if p == "dst.o" then some 5
     else none⟩

/-- C8: `runCommand` returns true when the shell command succeeds; on
failure it exits the process fatally when `continueIfFailed` is false and
returns false when `continueIfFailed` is true.  In every case the command
itself is executed exactly once. -/
theorem runCommand_spec (exec : String → Bool) (command : String)
    (continueIfFailed : Bool) :
    (runCommand exec command continueIfFailed).executed = [command] ∧
    (exec command = true →
      (runCommand exec command continueIfFailed).result = Except.ok true) ∧
    (exec command = false → continueIfFailed = false →
      (runCommand exec command continueIfFailed).result = Except.error ()) ∧
    (exec command = false → continueIfFailed = true →
      (runCommand exec command continueIfFailed).result = Except.ok false) := by
  by_cases h : exec command <;> cases continueIfFailed <;>
    simp [runCommand, h]

/-- Witness for `runCommand_spec`: with the demo oracle, "ok" returns
true, a failing command is fatal by default and returns false when
continuing is allowed. -/
theorem runCommand_spec_witness :
    (runCommand exec0 "ok" false).result = Except.ok true ∧
    (runCommand exec0 "bad" false).result = Except.error () ∧
    (runCommand exec0 "bad" true).result = Except.ok false :=
  ⟨(runCommand_spec exec0 "ok" false).2.1 rfl,
   (runCommand_spec exec0 "bad" false).2.2.1 rfl rfl,
   (runCommand_spec exec0 "bad" true).2.2.2 rfl rfl⟩

/-- C4: `compile` is fatal (without attempting the command) when the
source is missing; runs the command unconditionally when the destination
is missing; and otherwise runs the command exactly when the source's
modification time is strictly newer than the destination's, or the
source's modification time is unavailable. -/
theorem compile_spec (fs : FileSys) (exec : String → Bool)
    (command source destination : String) :
    (fs.existsSync source = false →
      compile fs exec command source destination
        = CompileOutcome.fatalMissingSource) ∧
    (fs.existsSync source = true → fs.existsSync destination = false →
      compile fs exec command source destination
        = CompileOutcome.ranCommand (runCommand exec command false)) ∧
    (fs.existsSync source = true → fs.existsSync destination = true →
      ∀ sm dm : Int, fs.mtime source = some sm →
        fs.mtime destination = some dm →
        ((compile fs exec command source destination).ran = true ↔ sm > dm)) ∧
    (fs.existsSync source = true → fs.existsSync destination = true →
      fs.mtime source = none →
      (compile fs exec command source destination).ran = true) := by
  refine ⟨fun hs => ?_, fun hs hd => ?_, fun hs hd sm dm hsm hdm => ?_,
    fun hs hd hsm => ?_⟩
  · simp [compile, hs]
  · simp [compile, hs, hd]
  · by_cases hgt : sm > dm <;>
      simp [compile, hs, hd, hsm, hdm, CompileOutcome.ran, hgt]
  · simp [compile, hs, hd, hsm, CompileOutcome.ran]

/-- Witness for `compile_spec`: each branch on the demo filesystem. -/
theorem compile_spec_witness :
    compile fsDemo exec0 "cc" "missing.c" "dst.o"
      = CompileOutcome.fatalMissingSource ∧
    compile fsDemo exec0 "cc" "src.c" "nodst.o"
      = CompileOutcome.ranCommand (runCommand exec0 "cc" false) ∧
    ((compile fsDemo exec0 "cc" "src.c" "dst.o").ran = true ↔
      (10 : Int) > 5) ∧
    (compile fsDemo exec0 "cc" "old.c" "dst.o").ran = true :=
  ⟨(compile_spec fsDemo exec0 "cc" "missing.c" "dst.o").1 rfl,
   (compile_spec fsDemo exec0 "cc" "src.c" "nodst.o").2.1 rfl rfl,
   (compile_spec fsDemo exec0 "cc" "src.c" "dst.o").2.2.1 rfl rfl 10 5 rfl rfl,
   (compile_spec fsDemo exec0 "cc" "old.c" "dst.o").2.2.2 rfl rfl rfl⟩

/-- C5: the server installed by `startExServer` replies 0 to a message
"r::" ++ cmd whose command succeeds locally, replies 1 when it fails (and
never exits the server process, since it continues on failure), and for a
message without the "r::" marker sends no reply and executes nothing. -/
theorem serverHandleMessage_spec (exec : String → Bool) (msg : String) :
    (startsWithRunMarker msg = true →
      serverHandleMessage exec msg =
        (some (if exec (strDrop msg 3) then 0 else 1),
          [strDrop msg 3], false)) ∧
    (startsWithRunMarker msg = false →
      serverHandleMessage exec msg = (none, [], false)) := by
  constructor
  · intro hpre
    by_cases hexec : exec (strDrop msg 3) <;>
      simp [serverHandleMessage, hpre, runCommand, hexec]
  · intro hpre
    simp [serverHandleMessage, hpre]

/-- Witness for `serverHandleMessage_spec`: "r::ok" gets reply 0,
"r::bad" gets reply 1 without exiting, and "hello" is ignored. -/
theorem serverHandleMessage_spec_witness :
    serverHandleMessage exec0 "r::ok" = (some 0, ["ok"], false) ∧
    serverHandleMessage exec0 "r::bad" = (some 1, ["bad"], false) ∧
    serverHandleMessage exec0 "hello" = (none, [], false) :=
  ⟨(serverHandleMessage_spec exec0 "r::ok").1 rfl,
   (serverHandleMessage_spec exec0 "r::bad").1 rfl,
   (serverHandleMessage_spec exec0 "hello").2 rfl⟩

/-- C6 counterexample: on a fresh registry (where `allowExternal` was
never called), `exCall` of a command that fails locally does NOT return
to its caller — `runCommand` with its default `continueIfFailed = false`
exits the process — refuting the claim that `exCall` always returns; no
network connection is opened, though. -/
theorem exCall_default_cex :
    (mkBuilder Nat).allowExternalCommands = false ∧
    ExCallOutcome.returnsNormally
      (Builder.exCall (mkBuilder Nat) exec0 "bad" none 8086) = false :=
  ⟨rfl, rfl⟩

/-- C6 amended: on every registry whose `allowExternalCommands` flag is
still false (the constructor default, `allowExternal` never called),
`exCall(s, ip, port)` executes `s` locally via `runCommand` and opens no
network connection; it returns to its caller whenever the local command
succeeds (a failing command is fatal via `runCommand`'s default). -/
theorem exCall_default_local {α : Type} (b : Builder α)
    (exec : String → Bool) (s : String) (ip : Option String) (port : Nat)
    (h : b.allowExternalCommands = false) :
    Builder.exCall b exec s ip port
      = ExCallOutcome.localRun (runCommand exec s false) ∧
    ExCallOutcome.usedNetwork (Builder.exCall b exec s ip port) = false ∧
    ExCallOutcome.executedLocally (Builder.exCall b exec s ip port) = [s] ∧
    (exec s = true →
      ExCallOutcome.returnsNormally (Builder.exCall b exec s ip port)
        = true) := by
  by_cases hexec : exec s <;>
    simp [Builder.exCall, h, runCommand, hexec, ExCallOutcome.usedNetwork,
      ExCallOutcome.executedLocally, ExCallOutcome.returnsNormally]

/-- Witness for `exCall_default_local`: a fresh registry runs "ok"
locally, with no network use, and returns normally. -/
theorem exCall_default_local_witness :
    Builder.exCall (mkBuilder Nat) exec0 "ok" none 8086
      = ExCallOutcome.localRun (runCommand exec0 "ok" false) ∧
    ExCallOutcome.usedNetwork
      (Builder.exCall (mkBuilder Nat) exec0 "ok" none 8086) = false ∧
    ExCallOutcome.executedLocally
      (Builder.exCall (mkBuilder Nat) exec0 "ok" none 8086) = ["ok"] ∧
    (exec0 "ok" = true →
      ExCallOutcome.returnsNormally
        (Builder.exCall (mkBuilder Nat) exec0 "ok" none 8086) = true) :=
  exCall_default_local (mkBuilder Nat) exec0 "ok" none 8086 rfl

/-- A directory tree as seen through `fs.readdirSync(path,
{ withFileTypes: true })`: each entry is a file or a directory with its
own listing, in readdir order. -/
inductive FsTree where
  | file (name : String)
  | dir (name : String) (entries : List FsTree)
  deriving Repr

/-- `joinPath` (lines 291-293) wraps `path.join`; modelled for plain
segment names: joining onto "" or "." yields the name itself (node
normalizes "./x" to "x"), otherwise the parts are separated by "/". -/
def joinPath (a b : String) : String :=
  if a = "" || a = "." then b else a ++ "/" ++ b

/-- The skip condition of `scanDir` (line 276): a file entry is skipped
when it matchesP `ignores`, or when `matchesP` is provided and the name does
not match it.  A RegExp is embedded as a predicate on the entry name. -/
def excludeFile (matchesP ignores : Option (String → Bool))
    (name : String) : Bool :=
  (match ignores with
   | some ig => ig name
   | none => false) ||
  (match matchesP with
   | some m => !(m name)
   | none => false)

/-- `scanDir` (lines 268-285): walk the listing in order; recurse into
every directory (patterns are not consulted for directories); keep each
non-skipped file as `joinPath path name`. -/
def scanDir (p : String) (entries : List FsTree)
    (matchesP ignores : Option (String → Bool)) : List String :=
  match entries with
  | [] => []
  | FsTree.dir name sub :: rest =>
      scanDir (joinPath p name) sub matchesP ignores ++
        scanDir p rest matchesP ignores
  | FsTree.file name :: rest =>
      if excludeFile matchesP ignores name then
        scanDir p rest matchesP ignores
      else joinPath p name :: scanDir p rest matchesP ignores

/-- Every file reachable in the tree, paired as (joined path, entry name),
with every directory traversed unconditionally. -/
def filesWithNames (p : String) (entries : List FsTree) :
    List (String × String) :=
  match entries with
  | [] => []
  | FsTree.dir name sub :: rest =>
      filesWithNames (joinPath p name) sub ++ filesWithNames p rest
  | FsTree.file name :: rest =>
      (joinPath p name, name) :: filesWithNames p rest

/-- Name-suffix test standing in for a `/\.ext$/` RegExp, evaluable in the
kernel. -/
def endsWithExt (n : String) (ext : String) : Bool :=
  n.toList.reverse.take ext.toList.length == ext.toList.reverse

/-- The demo tree of the claim: files `a.txt`, `b.log` and a subdirectory
`sub` holding `c.txt`, in readdir order. -/
def demoTree : List FsTree :=
  [FsTree.file "a.txt", FsTree.file "b.log",
   FsTree.dir "sub" [FsTree.file "c.txt"]]

theorem scanDir_filter_map (p : String) (entries : List FsTree)
    (m i : Option (String → Bool)) :
    scanDir p entries m i =
      ((filesWithNames p entries).filter
        (fun pr => !excludeFile m i pr.2)).map Prod.fst := by
  induction p, entries, m, i using scanDir.induct with
  | case1 p m i => simp [scanDir, filesWithNames]
  | case2 p m i name sub rest ih1 ih2 =>
      simp [scanDir, filesWithNames, ih1, ih2]
  | case3 p m i name rest hex ih =>
      simp [scanDir, filesWithNames, ih, hex]
  | case4 p m i name rest hex ih =>
      simp [scanDir, filesWithNames, ih, hex]

/-- C7: `scanDir` returns exactly the reachable files (never directories),
recursing into every subdirectory regardless of the patterns — a file is
dropped exactly when its name matches `ignores` or fails a provided
`matchesP` — each joined relative to the scanned root; on the demo tree
with a `.txt` matcher it returns exactly ["a.txt", "sub/c.txt"]. -/
theorem scanDir_spec :
    (∀ (p : String) (entries : List FsTree) (m i : Option (String → Bool)),
      scanDir p entries m i =
        ((filesWithNames p entries).filter
          (fun pr => !excludeFile m i pr.2)).map Prod.fst) ∧
    scanDir "." demoTree (some (fun n => endsWithExt n ".txt")) none
      = ["a.txt", "sub/c.txt"] := by
  refine ⟨scanDir_filter_map, ?_⟩
  simp [demoTree, scanDir, excludeFile, joinPath]
  norm_num [endsWithExt]
  decide

/-- A JavaScript value as far as the option registry is concerned: a
primitive, or a reference to a heap object. -/
inductive JsValue where
  | prim (s : String)
  | ref (addr : Nat)
  deriving Repr, DecidableEq

/-- A JavaScript object: its own enumerable properties, in order. -/
def JsObject := List (String × JsValue)

/-- A heap of objects; the address of an object is its index, and
allocation appends. -/
structure Heap where
  objs : List JsObject

/-- Dereference an address (a dangling address reads as the empty
object). -/
def Heap.get (h : Heap) (a : Nat) : JsObject :=
  h.objs.getD a []

/-- Mutate the object at address `a` in place — an arbitrary rewrite `f`
of its own property list, covering property writes and deletes. -/
def Heap.mutateAt (h : Heap) (a : Nat) (f : JsObject → JsObject) : Heap :=
  ⟨h.objs.set a (f (h.objs.getD a []))⟩

/-- `addArgument` (lines 109-111) under the heap model:
`Object.assign({}, a)` allocates a fresh object whose property list is
copied from the caller's object `a`, and the registry stores the fresh
address, not `a`. -/
def addArgument (h : Heap) (args : List Nat) (a : Nat) :
    Heap × List Nat :=
  (⟨h.objs ++ [h.get a]⟩, args ++ [h.objs.length])

/-- C9: after `addArgument(a)`, any mutation of the caller's object `a`
leaves the option stored in the registry unchanged: the registry
received a fresh copy at a new address, whose contents still equal the
snapshot of `a` taken at registration time. -/
theorem addArgument_defensive_copy (h : Heap) (args : List Nat) (a : Nat)
    (ha : a < h.objs.length) (f : JsObject → JsObject) :
    (addArgument h args a).2 = args ++ [h.objs.length] ∧
    (addArgument h args a).1.get h.objs.length = h.get a ∧
    ((addArgument h args a).1.mutateAt a f).get h.objs.length = h.get a := by
  refine ⟨rfl, ?_, ?_⟩
  · simp [addArgument, Heap.get, List.getD_append_right]
  · have hne : a ≠ h.objs.length := Nat.ne_of_lt ha
    show List.getD (((h.objs ++ [h.get a]).set a _)) h.objs.length [] = h.get a
    rw [List.getD_eq_getElem?_getD, List.getElem?_set_ne hne,
      List.getElem?_append_right (Nat.le_refl _)]
    simp [Heap.get]

/-- Witness for `addArgument_defensive_copy`: registering the one-object
heap's option and then erasing all of the caller's properties leaves the
stored copy intact. -/
theorem addArgument_defensive_copy_witness :
    (addArgument ⟨[[("name", JsValue.prim "name")]]⟩ [] 0).2 = [1] ∧
    ((addArgument ⟨[[("name", JsValue.prim "name")]]⟩ [] 0).1.get 1
      = [("name", JsValue.prim "name")]) ∧
    (((addArgument ⟨[[("name", JsValue.prim "name")]]⟩ [] 0).1.mutateAt 0
        (fun _ => [])).get 1 = [("name", JsValue.prim "name")]) :=
  addArgument_defensive_copy ⟨[[("name", JsValue.prim "name")]]⟩ [] 0
    (by decide) (fun _ => [])

/-- Index of the first occurrence of `pat` in `s` starting at offset `i`
(the search of `String.prototype.replace` with a string pattern); the
empty pattern matches at the current offset, as in JavaScript. -/
def firstOccAux (pat : List Char) : List Char → Nat → Option Nat
  | [], i => if pat.isPrefixOf ([] : List Char) then some i else none
  | c :: t, i =>
      if pat.isPrefixOf (c :: t) then some i else firstOccAux pat t (i + 1)

/-- `String.prototype.replace` with a string pattern: replace the first
occurrence of `pat` in `s` by `repl`; `s` unchanged when `pat` does not
occur. -/
def replaceFirst (s pat repl : String) : String :=
  match firstOccAux pat.toList s.toList 0 with
  | some i =>
      String.mk (s.toList.take i ++ repl.toList ++
        s.toList.drop (i + pat.toList.length))
  | none => s

/-- Modelled from node's `path.extname` (an external collaborator of
`extension`, line 301): the basename's suffix from its last dot; empty
when there is no dot, when the dot is the basename's first character, or
when the basename is exactly "..". -/
def extname (f : String) : String :=
  let base := (f.toList.reverse.takeWhile (fun c => c ≠ '/')).reverse
  if base = ['.', '.'] then ""
  else if base.contains '.' then
    let afterRev := base.reverse.takeWhile (fun c => c ≠ '.')
    let dotIdx := base.length - afterRev.length - 1
    if dotIdx = 0 then "" else String.mk ('.' :: afterRev.reverse)
  else ""

/-- `extension` (lines 300-302): replace the first occurrence of the
current extension substring of `f` by `ext`. -/
def extension (f ext : String) : String :=
  replaceFirst f (extname f) ext

/-- C10: on a file name with no extension (where `path.extname` yields
the empty string) and a non-empty `ext`, `extension` prepends `ext`
rather than appending it, because replacing the empty string inserts at
position 0 — e.g. `extension "file" ".o" = ".ofile"`. -/
theorem extension_no_ext_prepends (f ext : String)
    (hf : extname f = "") (hext : ext ≠ "") :
    extension f ext = ext ++ f := by
  unfold extension
  rw [hf]
  unfold replaceFirst
  have h0 : firstOccAux ("" : String).toList f.toList 0 = some 0 := by
    cases f.toList <;> simp [firstOccAux, List.isPrefixOf]
  rw [h0]
  show String.mk (f.toList.take 0 ++ ext.toList ++ f.toList.drop (0 + 0))
    = ext ++ f
  cases ext
  cases f
  simp [String.mk, List.take]
  rfl

/-- Witness for `extension_no_ext_prepends`: the claim's example. -/
theorem extension_no_ext_prepends_witness :
    extension "file" ".o" = ".ofile" :=
  extension_no_ext_prepends "file" ".o" rfl (by decide)

end BuildTool
